import Mathlib

/-!
# Shallow embedding of the API-Gateway Ansible modules

This file embeds the reconciliation logic of the modules under
`plugins/modules` (`apigw_api_key.py`, `apigw_stage.py`, `apigw_model.py`,
and the spec-modelled `apigw_resource` path-tree builder) and proves or
refutes the frozen specification claims about them.

Modelling conventions:
* Python scalar values (`None`, booleans, strings) are the inductive `PyVal`;
  `pyStr` is the Python `str()` rendering of those scalars.
* Python dicts with string keys are association lists (`Dict`), looked up by
  `alookup`; `dictGetD` is `d.get(k, None)`.
* Provider (boto3) calls are not executed: mutating calls are logged in a
  `List AwsCall` result component, and the values that provider reads would
  return (create responses, re-fetches) are passed in as oracle arguments.
* `fail_json` / uncaught exceptions in lookup adapters are the explicit
  outcomes of `FindOutcome`.
-/

/-- Python scalar values as they flow through these modules. -/
inductive PyVal where
  | none
  | bool (b : Bool)
  | str (s : String)
deriving DecidableEq, Repr

/-- Python `str()` on the scalar values used by the modules
(`str(True) = "True"`, `str(None) = "None"`). -/
def pyStr : PyVal → String
  | .none => "None"
  | .bool true => "True"
  | .bool false => "False"
  | .str s => s

/-- A Python dict with string keys and scalar values. -/
abbrev Dict := List (String × PyVal)

/-- Association-list lookup (`k in d` / `d[k]`). -/
def alookup {β : Type} : List (String × β) → String → Option β
  | [], _ => Option.none
  | (k, v) :: rest, key => if k = key then some v else alookup rest key

/-- Python `d.get(k, None)`. -/
def dictGetD (d : Dict) (k : String) : PyVal :=
  (alookup d k).getD .none

/-- Lift an optional Python string parameter to a `PyVal`. -/
def optPy : Option String → PyVal
  | Option.none => .none
  | some s => .str s

/-- One patch operation dict with `op`, `path` and `value` entries. -/
structure Patch where
  op : String
  path : String
  value : PyVal
deriving DecidableEq, Repr

/-- The mutating boto3 calls the modules can issue, with their arguments. -/
inductive AwsCall where
  | createApiKey (args : List (String × PyVal))
  | updateApiKey (apiKey : Option PyVal) (patchOperations : List Patch)
  | deleteApiKey (apiKey : Option PyVal)
  | deleteStage (restApiId stageName : String)
  | updateStage (restApiId stageName : String) (patchOperations : List Patch)
  | createModel (args : List (String × PyVal))
  | updateModel (restApiId modelName : String) (patchOperations : List Patch)
  | deleteModel (restApiId modelName : String)
  | createResource (restApiId parentId pathPart : String)
deriving DecidableEq, Repr

/-! ## apigw_api_key.py -/

/-- Validated parameters of the api_key module (`_define_module_argument_spec`):
`enabled` and `generate_distinct_id` have Ansible defaults `False`, so after
validation they are always booleans; `description` and `value` default to
`None`. -/
structure ApiKeyParams where
  name : String
  description : Option String
  value : Option String
  enabled : Bool
  generate_distinct_id : Bool
  state : String
deriving DecidableEq, Repr

/-- Python `params.get(param, None)` for the two fields the source loop in
`_create_patches` iterates over. -/
def apiKeyDiffVal (p : ApiKeyParams) : String → PyVal
  | "enabled" => .bool p.enabled
  | "description" => optPy p.description
  | _ => .none

/-- The body of one iteration of the loop in `ApiGwApiKey._create_patches`:
emit a replace op when the value is supplied and absent-or-different in `me`,
except the empty-description special case. -/
def apiKeyFieldPatch (me : Dict) (param : String) (ansValue : PyVal) : List Patch :=
  if ansValue = .none then []
  else
    match alookup me param with
    | Option.none =>
        -- boto removes `description` from get results when it is the empty
        -- string, so an empty desired description with no observed field is
        -- suppressed
        if param = "description" ∧ ansValue = .str "" then []
        else [⟨"replace", "/" ++ param, .str (pyStr ansValue)⟩]
    | some w =>
        if pyStr ansValue = pyStr w then []
        else [⟨"replace", "/" ++ param, .str (pyStr ansValue)⟩]

/-- Source `ApiGwApiKey._create_patches`: loop over `enabled` then `description`. -/
def apiKey_create_patches (p : ApiKeyParams) (me : Dict) : List Patch :=
  apiKeyFieldPatch me "enabled" (apiKeyDiffVal p "enabled")
  ++ apiKeyFieldPatch me "description" (apiKeyDiffVal p "description")

/-- The argument dict built by `ApiGwApiKey._create_api_key`: the three
required fields, then `description` and then `value`, each included only when
neither `None` nor the empty string. -/
def apiKey_create_args (p : ApiKeyParams) : List (String × PyVal) :=
  [("name", .str p.name), ("enabled", .bool p.enabled),
   ("generateDistinctId", .bool p.generate_distinct_id)]
  ++ (if p.description ≠ Option.none ∧ p.description ≠ some "" then
        [("description", optPy p.description)] else [])
  ++ (if p.value ≠ Option.none ∧ p.value ≠ some "" then
        [("value", optPy p.value)] else [])

/-- Source `ApiGwApiKey._create_api_key`; `resp` is the provider response to
`create_api_key`. Returns (changed, api_key, issued mutating calls). -/
def apiKey_create (checkMode : Bool) (p : ApiKeyParams) (resp : Dict) :
    Bool × Option Dict × List AwsCall :=
  if checkMode then (true, Option.none, [])
  else (true, some resp, [.createApiKey (apiKey_create_args p)])

/-- Source `ApiGwApiKey._update_api_key`; `me` is the observed key,
`rf` the result of the post-update `_retrieve_api_key` re-fetch. -/
def apiKey_update (checkMode : Bool) (p : ApiKeyParams) (me : Dict)
    (rf : Option Dict) : Bool × Option Dict × List AwsCall :=
  let patches := apiKey_create_patches p me
  if patches = [] then (false, some me, [])
  else if checkMode then (true, some me, [])
  else (true, rf, [.updateApiKey (alookup me "id") patches])

/-- Source `ApiGwApiKey._delete_api_key`: returns `True` (changed) whether or not
check mode suppressed the call. -/
def apiKey_delete (checkMode : Bool) (me : Dict) : Bool × List AwsCall :=
  (true, if checkMode then [] else [.deleteApiKey (alookup me "id")])

/-- Source `ApiGwApiKey.process_request`; `me` is the `_retrieve_api_key` result. -/
def apiKey_process (checkMode : Bool) (p : ApiKeyParams) (me : Option Dict)
    (createResp : Dict) (rf : Option Dict) : Bool × Option Dict × List AwsCall :=
  if p.state = "absent" ∧ me.isSome then
    match me with
    | some m => ((apiKey_delete checkMode m).1, Option.none, (apiKey_delete checkMode m).2)
    | Option.none => (false, Option.none, [])
  else if p.state = "present" then
    match me with
    | Option.none => apiKey_create checkMode p createResp
    | some m => apiKey_update checkMode p m rf
  else (false, Option.none, [])

/-! ## apigw_stage.py -/

/-- Validated parameters of the stage module. `method_settings` has Ansible
default `[]`; `description`, `cache_cluster_enabled` and `cache_cluster_size`
default to `None`. -/
structure MethodSettingParam where
  method_name : String
  method_verb : String
  caching_enabled : Option Bool
deriving DecidableEq, Repr

structure StageParams where
  name : String
  rest_api_id : String
  description : Option String
  cache_cluster_enabled : Option Bool
  cache_cluster_size : Option String
  method_settings : List MethodSettingParam
  state : String
deriving DecidableEq, Repr

/-- The observed stage dict returned by `get_stage`.  Its scalar attributes
(`description`, `cacheClusterEnabled`, `cacheClusterSize`, ...) live in
`attrs`; the Python read `stage.get("methodSettings", dict())` is the field
`methodSettings` (a key absent from the dict behaves like an empty map). -/
structure StageState where
  attrs : Dict
  methodSettings : List (String × Dict)
deriving DecidableEq, Repr

/-- Source `create_patch` of apigw_stage.py. -/
def create_patch (path : String) (value : PyVal) : Patch :=
  ⟨"replace", "/" ++ path, .str (pyStr value)⟩

/-- One iteration of the `arg_map` loop in `build_patch_args`: skip when the
user did not supply the parameter; otherwise emit a patch unless the observed
stage has the boto field with an equal stringified value. -/
def stage_attr_patch (attrs : Dict) (botoParam : String) (ansValue : Option PyVal) :
    List Patch :=
  match ansValue with
  | Option.none => []
  | some v =>
      match alookup attrs botoParam with
      | some w => if pyStr v = pyStr w then [] else [create_patch botoParam v]
      | Option.none => [create_patch botoParam v]

/-- The composite method key: every slash of `method_name` replaced by `~1`
(the Python `re.sub` call), then a slash and `method_verb` appended. -/
def escapePath (s : String) : String :=
  ⟨s.data.flatMap (fun c => if c = '/' then ['~', '1'] else [c])⟩

def stage_method_key (m : MethodSettingParam) : String :=
  escapePath m.method_name ++ "/" ++ m.method_verb

/-- One iteration of the `method_settings` loop in `build_patch_args`.
`get_stage` responses always carry `cachingEnabled` inside each per-method
settings dict; the inner `cachingEnabled` subscript access is modelled by
`dictGetD` (Python would raise `KeyError` if the field were absent). -/
def stage_method_patch (stgMethods : List (String × Dict)) (m : MethodSettingParam) :
    List Patch :=
  match alookup stgMethods (stage_method_key m) with
  | Option.none =>
      [create_patch (stage_method_key m ++ "/caching/enabled")
        (.bool (m.caching_enabled.getD false))]
  | some inner =>
      if pyStr (dictGetD inner "cachingEnabled") ≠
          pyStr (.bool (m.caching_enabled.getD false)) then
        [create_patch (stage_method_key m ++ "/caching/enabled")
          (.bool (m.caching_enabled.getD false))]
      else []

structure UpdateStageArgs where
  restApiId : String
  stageName : String
  patchOperations : List Patch
deriving DecidableEq, Repr

/-- The `patches` list accumulated inside `build_patch_args`: the `arg_map`
dict iterates in insertion order (description, cache_cluster_enabled,
cache_cluster_size), then the `method_settings` loop. -/
def stage_patches (st : StageState) (params : StageParams) : List Patch :=
  stage_attr_patch st.attrs "description" (params.description.map .str)
  ++ stage_attr_patch st.attrs "cacheClusterEnabled" (params.cache_cluster_enabled.map .bool)
  ++ stage_attr_patch st.attrs "cacheClusterSize" (params.cache_cluster_size.map .str)
  ++ (params.method_settings.map (stage_method_patch st.methodSettings)).flatten

/-- Source `build_patch_args` of apigw_stage.py: `stage` is replaced by an
empty dict when `None`; a non-empty patch list is wrapped into the
`update_stage` argument set. -/
def build_patch_args (stage : Option StageState) (params : StageParams) :
    Option UpdateStageArgs :=
  if stage_patches (stage.getD ⟨[], []⟩) params = [] then Option.none
  else some ⟨params.rest_api_id, params.name,
    stage_patches (stage.getD ⟨[], []⟩) params⟩

/-- The lookup-adapter inputs: a provider read either succeeds, raises a
`ClientError` (carrying `str(e)` and the JSON dump of `e.response`), or
raises a `BotoCoreError` (carrying `str(e)`). -/
inductive GetResult (α : Type) where
  | ok (v : α)
  | clientError (errStr response : String)
  | coreError (errStr : String)
deriving DecidableEq, Repr

/-- The outcome of a lookup adapter: a found object, the not-found sentinel
(`None`), a `fail_json` abort, or an exception propagating uncaught. -/
inductive FindOutcome (α : Type) where
  | found (v : α)
  | notFound
  | failJson (msg : String)
  | raised
deriving DecidableEq, Repr

/-- Python substring test, `needle in hay` on strings. -/
def strContainsAux (n : List Char) : List Char → Bool
  | [] => n.isPrefixOf []
  | c :: cs => n.isPrefixOf (c :: cs) || strContainsAux n cs

def strContains (needle hay : String) : Bool :=
  strContainsAux needle.data hay.data

/-- Source `ApiGwStage._find_stage`: a `ClientError` whose response dump mentions
`NotFoundException` is the not-found sentinel; every other error is fatal. -/
def stage_find {α : Type} (r : GetResult α) : FindOutcome α :=
  match r with
  | .ok v => .found v
  | .clientError e resp =>
      if strContains "NotFoundException" resp then .notFound
      else .failJson ("Error while finding stage via boto3: " ++ e)
  | .coreError e => .failJson ("Error while finding stage via boto3: " ++ e)

/-- Source `ApiGwStage._delete_stage`: `changed` is set only inside the
`if not check_mode` block, so check mode reports `changed=False`. -/
def stage_delete (checkMode : Bool) (sp : StageParams) : Bool × List AwsCall :=
  if checkMode then (false, [])
  else (true, [.deleteStage sp.rest_api_id sp.name])

/-- Source `ApiGwStage._update_stage`; `rf` is the `get_stage` response of the
post-update re-fetch. `result` stays `None` unless the non-check-mode update
path runs. -/
def stage_update (checkMode : Bool) (sp : StageParams) (stage : Option StageState)
    (rf : StageState) : Bool × Option StageState × List AwsCall :=
  match build_patch_args stage sp with
  | Option.none => (false, Option.none, [])
  | some a =>
      if checkMode then (true, Option.none, [])
      else (true, some rf, [.updateStage a.restApiId a.stageName a.patchOperations])

/-- Source `ApiGwStage.process_request`; `found` is the `_find_stage` result. -/
def stage_process (checkMode : Bool) (sp : StageParams) (found : Option StageState)
    (rf : StageState) : Bool × Option StageState × List AwsCall :=
  if found.isSome ∧ sp.state = "absent" then
    ((stage_delete checkMode sp).1, Option.none, (stage_delete checkMode sp).2)
  else if sp.state = "present" then stage_update checkMode sp found rf
  else (false, Option.none, [])

/-! ## apigw_model.py -/

/-- Validated parameters of the model module; `description` has Ansible
default the empty string, `content_type` and `schema` default to `None`. -/
structure ModelParams where
  rest_api_id : String
  name : String
  content_type : Option String
  schema : Option String
  description : Option String
  state : String
deriving DecidableEq, Repr

/-- Source `ApiGwModel._find_model`: its bare `except ClientError` catches every
client error (not only not-found); a `BotoCoreError` is not caught and
propagates uncaught. -/
def model_find {α : Type} (r : GetResult α) : FindOutcome α :=
  match r with
  | .ok v => .found v
  | .clientError _ _ => .notFound
  | .coreError _ => .raised

/-- Source `ApiGwModel._patch_builder`: unconditionally one replace op for `schema`
and one for `description`, carrying the raw parameter values. -/
def model_patch_builder (p : ModelParams) : List Patch :=
  [⟨"replace", "/schema", optPy p.schema⟩,
   ⟨"replace", "/description", optPy p.description⟩]

/-- Source `ApiGwModel._update_model`; `m` is the observed model dict and `u`
the provider `update_model` response.  The subscript read of `schema` on the
observed model is modelled by
`dictGetD` (`get_model` responses always carry `schema`; Python would raise
`KeyError` otherwise). -/
def model_update (checkMode : Bool) (p : ModelParams) (m : Dict) (u : Dict) :
    Bool × Option Dict × List AwsCall :=
  let description := dictGetD m "description"
  let moduleDescription := optPy p.description
  if optPy p.schema = dictGetD m "schema" ∧ description = moduleDescription then
    (false, Option.none, [])
  else if checkMode then (true, Option.none, [])
  else (true, some u,
    [.updateModel p.rest_api_id p.name (model_patch_builder p)])

/-- Source `ApiGwModel._create_model`: the argument dict always carries all five
fields, whatever their values; `resp` is the `create_model` response. -/
def model_create (checkMode : Bool) (p : ModelParams) (resp : Dict) :
    Bool × Option Dict × List AwsCall :=
  if checkMode then (true, Option.none, [])
  else (true, some resp,
    [.createModel [("restApiId", .str p.rest_api_id), ("name", .str p.name),
                   ("contentType", optPy p.content_type),
                   ("schema", optPy p.schema),
                   ("description", optPy p.description)]])

/-- Source `ApiGwModel.process_request`; `found` is the `_find_model` result. -/
def model_process (checkMode : Bool) (p : ModelParams) (found : Option Dict)
    (createResp updResp : Dict) : Bool × Option Dict × List AwsCall :=
  if p.state = "absent" ∧ found = Option.none then (false, Option.none, [])
  else if p.state = "absent" then
    (true, Option.none,
      if checkMode then [] else [.deleteModel p.rest_api_id p.name])
  else
    match found with
    | Option.none => model_create checkMode p createResp
    | some m => model_update checkMode p m updResp

/-! ## apigw_resource.py (path-tree builder)

The `apigw_resource.py` module itself is not part of the sources; only its
unit tests are. The definitions below are therefore modelled from the spec. -/

/-- Modelled from the spec: splitting the requested slash-delimited path on
the slash character (the `apigw_resource.py` source is missing; spec §4.4
requires splitting on slashes). Behaves like the Python string `split`. -/
def splitSlashAux : List Char → List (List Char)
  | [] => [[]]
  | c :: cs =>
      match splitSlashAux cs with
      | [] => [[]]
      | h :: t => if c = '/' then [] :: h :: t else (c :: h) :: t

def splitSlash (s : String) : List String :=
  (splitSlashAux s.data).map (fun l => ⟨l⟩)

/-- Modelled from the spec: the cumulative (full path, trailing segment)
pairs of a requested path, e.g. `"/a/b" ↦ [("/a","a"), ("/a/b","b")]`
(§4.4: path-segment decomposition for hierarchical resources). -/
def subPaths (name : String) : List (String × String) :=
  let segs := (splitSlash name).filter (fun s => s ≠ "")
  (segs.foldl (fun (acc : List (String × String) × String) seg =>
      let p := if acc.2 = "/" then "/" ++ seg else acc.2 ++ "/" ++ seg
      (acc.1 ++ [(p, seg)], p)) ([], "/")).1

/-- Modelled from the spec: walk the decomposed path while each cumulative
prefix exists in the resource map, returning the info of the deepest existing
ancestor and the missing trailing (path, segment) pairs (§4.4: "find the longest
existing prefix of the requested path"). -/
def splitExisting (pmap : List (String × Dict)) :
    List (String × String) → Dict → Dict × List (String × String)
  | [], last => (last, [])
  | (p, seg) :: rest, last =>
      match alookup pmap p with
      | some info => splitExisting pmap rest info
      | Option.none => (last, (p, seg) :: rest)

/-- Modelled from the spec/tests: the id a create response contributes as the
next parent (the `id` entry of the response). -/
def respId (r : Dict) : String := pyStr (dictGetD r "id")

/-- Modelled from the spec: one `create_resource` call per missing segment in
path order, each using the id returned by the immediately preceding create as
parent; only the response of the final create is kept (spec §4.4). `resps i`
is the provider response to create number `i`. -/
def createChain (rid : String) (resps : Nat → Dict) :
    String → List (String × String) → Nat → Option Dict × List AwsCall
  | _, [], _ => (Option.none, [])
  | parentId, (_, seg) :: rest, i =>
      let r := resps i
      match rest with
      | [] => (some r, [.createResource rid parentId seg])
      | _ :: _ =>
          let next := createChain rid resps (respId r) rest (i + 1)
          (next.1, .createResource rid parentId seg :: next.2)

/-- Modelled from the spec: the `state=present` path of
`ApiGwResource.process_request` — if the full path exists, return the
existing leaf with `changed=False` and no creates; otherwise (outside check
mode) create every missing trailing segment in order and return only the
response of the final create with `changed=True` (spec §4.4, the §8 path-tree
scenario, and the unit tests of the module). -/
def resource_present (checkMode : Bool) (rid : String)
    (pmap : List (String × Dict)) (name : String) (resps : Nat → Dict) :
    Bool × Option Dict × List AwsCall :=
  match alookup pmap name with
  | some leaf => (false, some leaf, [])
  | Option.none =>
      if checkMode then (true, Option.none, [])
      else
        let root := (alookup pmap "/").getD []
        let start := splitExisting pmap (subPaths name) root
        let chain := createChain rid resps (respId start.1) start.2 0
        (true, chain.1, chain.2)

/-! ## Shared predicates and helper lemmas -/

/-- The per-field diff condition of the builders: the desired value is
absent from the observed dict, or differs from it under `str()`. -/
def diffOrAbsent (d : Dict) (f : String) (v : PyVal) : Prop :=
  ∀ w, alookup d f = some w → pyStr v ≠ pyStr w

/-- The per-entry diff condition of the stage method-settings loop: the
composite key is absent from the observed map, or the stringified
`cachingEnabled` differs from the stringified desired flag. -/
def methodDiffOrAbsent (ms : List (String × Dict)) (m : MethodSettingParam) : Prop :=
  ∀ inner, alookup ms (stage_method_key m) = some inner →
    pyStr (dictGetD inner "cachingEnabled") ≠
      pyStr (.bool (m.caching_enabled.getD false))

theorem apiKeyFieldPatch_spec (me : Dict) (param : String) (v : PyVal) :
    ∀ pa ∈ apiKeyFieldPatch me param v,
      pa = ⟨"replace", "/" ++ param, .str (pyStr v)⟩ ∧ v ≠ .none ∧
        diffOrAbsent me param v := by
  intro pa hpa
  unfold apiKeyFieldPatch at hpa
  split at hpa
  · simp at hpa
  · rename_i hv
    split at hpa
    · rename_i heq
      split at hpa
      · simp at hpa
      · simp at hpa
        subst hpa
        exact ⟨rfl, hv, fun w hw => by rw [heq] at hw; cases hw⟩
    · rename_i w heq
      split at hpa
      · simp at hpa
      · rename_i hne
        simp at hpa
        subst hpa
        refine ⟨rfl, hv, fun w2 hw2 => ?_⟩
        rw [heq] at hw2
        cases hw2
        exact hne

theorem stage_attr_patch_spec (attrs : Dict) (b : String) (ov : Option PyVal) :
    ∀ pa ∈ stage_attr_patch attrs b ov,
      ∃ v, ov = some v ∧ pa = create_patch b v ∧ diffOrAbsent attrs b v := by
  intro pa hpa
  unfold stage_attr_patch at hpa
  split at hpa
  · simp at hpa
  · rename_i v
    split at hpa
    · rename_i w heq
      split at hpa
      · simp at hpa
      · rename_i hne
        simp at hpa
        subst hpa
        refine ⟨v, rfl, rfl, fun w2 hw2 => ?_⟩
        rw [heq] at hw2
        cases hw2
        exact hne
    · rename_i heq
      simp at hpa
      subst hpa
      exact ⟨v, rfl, rfl, fun w hw => by rw [heq] at hw; cases hw⟩

theorem stage_attr_patch_absent (attrs : Dict) (b : String) (v : PyVal)
    (h : alookup attrs b = Option.none) :
    stage_attr_patch attrs b (some v) = [create_patch b v] := by
  unfold stage_attr_patch
  rw [h]

theorem stage_method_patch_spec (ms : List (String × Dict)) (m : MethodSettingParam) :
    ∀ pa ∈ stage_method_patch ms m,
      pa = create_patch (stage_method_key m ++ "/caching/enabled")
             (.bool (m.caching_enabled.getD false)) ∧
        methodDiffOrAbsent ms m := by
  intro pa hpa
  unfold stage_method_patch at hpa
  split at hpa
  · rename_i heq
    simp at hpa
    subst hpa
    exact ⟨rfl, fun inner hin => by rw [heq] at hin; cases hin⟩
  · rename_i inner heq
    split at hpa
    · rename_i hne
      simp at hpa
      subst hpa
      refine ⟨rfl, fun inner2 hin2 => ?_⟩
      rw [heq] at hin2
      cases hin2
      exact hne
    · simp at hpa

theorem stage_method_patch_absent (ms : List (String × Dict)) (m : MethodSettingParam)
    (h : alookup ms (stage_method_key m) = Option.none) :
    stage_method_patch ms m =
      [create_patch (stage_method_key m ++ "/caching/enabled")
        (.bool (m.caching_enabled.getD false))] := by
  unfold stage_method_patch
  rw [h]

/-! ## Claims -/

/-- C1: the stage module breaks dry-run idempotence on delete. With
state=absent and an existing stage, the non-dry-run invocation issues the
delete call and reports changed=true, but the dry-run invocation, while
suppressing the call, reports changed=false instead of the same
changed=true (in `_delete_stage`, `changed = True` is assigned only inside
the `if not check_mode` block). -/
theorem apigw_C1_stage_dry_run_delete_bug :
    stage_process false
      ⟨"mystage", "rid", Option.none, Option.none, Option.none, [], "absent"⟩
      (some ⟨[], []⟩) ⟨[], []⟩ =
      (true, Option.none, [.deleteStage "rid" "mystage"])
    ∧ stage_process true
      ⟨"mystage", "rid", Option.none, Option.none, Option.none, [], "absent"⟩
      (some ⟨[], []⟩) ⟨[], []⟩ =
      (false, Option.none, []) := by
  decide

/-- C2 counterexample: in the model module, a client error that is not a
not-found error (its response dump does not mention NotFoundException) is
still mapped to the not-found sentinel instead of aborting fatally. -/
theorem apigw_C2_counterexample :
    model_find (GetResult.clientError "AccessDeniedException"
        "An error occurred: AccessDeniedException" : GetResult Dict) =
      FindOutcome.notFound
    ∧ strContains "NotFoundException"
        "An error occurred: AccessDeniedException" = false := by
  decide

/-- C2 (amended): in the stage module a client error is mapped to the
not-found sentinel exactly when its response dump mentions
NotFoundException, every other error aborts via fail_json, and nothing else
is ever mapped to not-found; in the model module every client error
(whatever its content) is mapped to the not-found sentinel, and a
transport (core) error propagates uncaught rather than calling
fail_json. -/
theorem apigw_C2_amended (α : Type) (e resp msg : String) (r : GetResult α) :
    (strContains "NotFoundException" resp = true →
        stage_find (GetResult.clientError e resp : GetResult α) =
          FindOutcome.notFound)
    ∧ (strContains "NotFoundException" resp = false →
        stage_find (GetResult.clientError e resp : GetResult α) =
          FindOutcome.failJson ("Error while finding stage via boto3: " ++ e))
    ∧ stage_find (GetResult.coreError msg : GetResult α) =
        FindOutcome.failJson ("Error while finding stage via boto3: " ++ msg)
    ∧ (stage_find r = FindOutcome.notFound →
        ∃ e2 resp2, r = GetResult.clientError e2 resp2 ∧
          strContains "NotFoundException" resp2 = true)
    ∧ model_find (GetResult.clientError e resp : GetResult α) =
        FindOutcome.notFound
    ∧ (model_find r = FindOutcome.notFound →
        ∃ e2 resp2, r = GetResult.clientError e2 resp2)
    ∧ model_find (GetResult.coreError msg : GetResult α) = FindOutcome.raised := by
  refine ⟨?_, ?_, rfl, ?_, rfl, ?_, rfl⟩
  · intro h
    simp [stage_find, h]
  · intro h
    simp [stage_find, h]
  · intro h
    cases r with
    | ok v => simp [stage_find] at h
    | clientError e2 resp2 =>
        refine ⟨e2, resp2, rfl, ?_⟩
        by_contra hc
        simp [stage_find, Bool.not_eq_true _ ▸ hc] at h
    | coreError m2 => simp [stage_find] at h
  · intro h
    cases r with
    | ok v => simp [model_find] at h
    | clientError e2 resp2 => exact ⟨e2, resp2, rfl⟩
    | coreError m2 => simp [model_find] at h

theorem apigw_C2_amended_witness :
    stage_find (GetResult.clientError "err"
        "got a NotFoundException from the provider" : GetResult Dict) =
      FindOutcome.notFound :=
  (apigw_C2_amended Dict "err" "got a NotFoundException from the provider" "m"
    (GetResult.ok ([] : Dict))).1 (by decide)

/-- C3 counterexample: in the model module, when the computed diff is empty
(desired schema and description both equal the observed values), the
invocation reports changed=false but returns a null object, not the
already-observed object as the claim requires. -/
theorem apigw_C3_counterexample :
    model_update false ⟨"rid", "m", Option.none, some "s", some "d", "present"⟩
      [("schema", PyVal.str "s"), ("description", PyVal.str "d")] [] =
      (false, Option.none, [])
    ∧ (Option.none : Option Dict) ≠
        some [("schema", PyVal.str "s"), ("description", PyVal.str "d")] := by
  decide

/-- C3 (amended): the api_key module satisfies the claim in full (empty diff:
no call, changed=false, observed object returned; non-empty diff: one update
call, changed=true, re-fetch returned; dry-run: call skipped, pre-change
object returned, changed=true). The stage and model modules return a null
object instead of the observed object on an empty diff, and a null object
instead of the pre-change object under dry-run; on a non-empty diff the
stage module returns the post-update re-fetch, while the model module
returns the update call response directly without a re-fetch. -/
theorem apigw_C3_amended (cm : Bool) (akp : ApiKeyParams) (me : Dict)
    (rf : Option Dict) (sp : StageParams) (ost : Option StageState)
    (srf : StageState) (mp : ModelParams) (mobs mu : Dict) :
    (apiKey_create_patches akp me = [] →
        apiKey_update cm akp me rf = (false, some me, []))
    ∧ (apiKey_create_patches akp me ≠ [] →
        apiKey_update true akp me rf = (true, some me, [])
        ∧ apiKey_update false akp me rf =
            (true, rf, [AwsCall.updateApiKey (alookup me "id")
              (apiKey_create_patches akp me)]))
    ∧ (build_patch_args ost sp = Option.none →
        stage_update cm sp ost srf = (false, Option.none, []))
    ∧ (∀ a, build_patch_args ost sp = some a →
        stage_update true sp ost srf = (true, Option.none, [])
        ∧ stage_update false sp ost srf =
            (true, some srf,
              [AwsCall.updateStage a.restApiId a.stageName a.patchOperations]))
    ∧ ((optPy mp.schema = dictGetD mobs "schema" ∧
          dictGetD mobs "description" = optPy mp.description) →
        model_update cm mp mobs mu = (false, Option.none, []))
    ∧ (¬(optPy mp.schema = dictGetD mobs "schema" ∧
          dictGetD mobs "description" = optPy mp.description) →
        model_update true mp mobs mu = (true, Option.none, [])
        ∧ model_update false mp mobs mu =
            (true, some mu,
              [AwsCall.updateModel mp.rest_api_id mp.name
                (model_patch_builder mp)])) := by
  refine ⟨?_, ?_, ?_, ?_, ?_, ?_⟩
  · intro h
    simp [apiKey_update, h]
  · intro h
    exact ⟨by simp [apiKey_update, h], by simp [apiKey_update, h]⟩
  · intro h
    unfold stage_update
    rw [h]
  · intro a ha
    unfold stage_update
    rw [ha]
    exact ⟨by simp, by simp⟩
  · intro h
    simp only [model_update]
    rw [if_pos h]
  · intro h
    simp only [model_update]
    rw [if_neg h, if_neg h]
    exact ⟨by simp, by simp⟩

theorem apigw_C3_amended_witness :
    apiKey_update false ⟨"k", Option.none, Option.none, false, false, "present"⟩
      [("enabled", PyVal.bool false)] Option.none =
      (false, some [("enabled", PyVal.bool false)], []) :=
  (apigw_C3_amended false ⟨"k", Option.none, Option.none, false, false, "present"⟩
    [("enabled", PyVal.bool false)] Option.none
    ⟨"dev", "rid", Option.none, Option.none, Option.none, [], "present"⟩
    Option.none ⟨[], []⟩
    ⟨"rid", "m", Option.none, Option.none, Option.none, "present"⟩ [] []).1
    (by decide)

/-- C4 counterexample: the model module patch builder is not minimal. With
desired schema differing but desired description equal to the observed
description, the issued patch list still contains a replace operation for
description whose desired and observed values are equal, contradicting the
claim that such a field never appears in the ChangeSet. -/
theorem apigw_C4_counterexample :
    (model_update false ⟨"rid", "m", Option.none, some "new", some "same", "present"⟩
        [("schema", PyVal.str "old"), ("description", PyVal.str "same")] []).2.2 =
      [AwsCall.updateModel "rid" "m"
        [⟨"replace", "/schema", PyVal.str "new"⟩,
         ⟨"replace", "/description", PyVal.str "same"⟩]]
    ∧ dictGetD [("schema", PyVal.str "old"), ("description", PyVal.str "same")]
        "description" = PyVal.str "same" := by
  decide

/-- C4 (amended): the api_key and stage diff builders emit a replace
operation only for fields the user supplied whose stringified desired value
is absent from or differs from the observed state (and stage method-setting
entries only under the composite-key absent-or-differs condition); the model
module is the exception: whenever its update path fires it sends replace
operations for both schema and description unconditionally. -/
theorem apigw_C4_amended (p : ApiKeyParams) (me : Dict) (sp : StageParams)
    (st : StageState) (mp : ModelParams) (mobs mu : Dict) :
    (∀ pa ∈ apiKey_create_patches p me,
        ∃ f, (f = "enabled" ∨ f = "description") ∧
          apiKeyDiffVal p f ≠ PyVal.none ∧
          pa = ⟨"replace", "/" ++ f, PyVal.str (pyStr (apiKeyDiffVal p f))⟩ ∧
          diffOrAbsent me f (apiKeyDiffVal p f))
    ∧ (∀ pa ∈ stage_patches st sp,
        (∃ d, sp.description = some d ∧
            pa = create_patch "description" (PyVal.str d) ∧
            diffOrAbsent st.attrs "description" (PyVal.str d))
        ∨ (∃ b, sp.cache_cluster_enabled = some b ∧
            pa = create_patch "cacheClusterEnabled" (PyVal.bool b) ∧
            diffOrAbsent st.attrs "cacheClusterEnabled" (PyVal.bool b))
        ∨ (∃ s2, sp.cache_cluster_size = some s2 ∧
            pa = create_patch "cacheClusterSize" (PyVal.str s2) ∧
            diffOrAbsent st.attrs "cacheClusterSize" (PyVal.str s2))
        ∨ (∃ m ∈ sp.method_settings,
            pa = create_patch (stage_method_key m ++ "/caching/enabled")
              (PyVal.bool (m.caching_enabled.getD false)) ∧
            methodDiffOrAbsent st.methodSettings m))
    ∧ ((model_update false mp mobs mu).2.2 ≠ [] →
        (model_update false mp mobs mu).2.2 =
          [AwsCall.updateModel mp.rest_api_id mp.name
            [⟨"replace", "/schema", optPy mp.schema⟩,
             ⟨"replace", "/description", optPy mp.description⟩]]) := by
  refine ⟨?_, ?_, ?_⟩
  · intro pa hpa
    rcases List.mem_append.mp hpa with h | h
    · have hs := apiKeyFieldPatch_spec me "enabled" (apiKeyDiffVal p "enabled") pa h
      exact ⟨"enabled", Or.inl rfl, hs.2.1, hs.1, hs.2.2⟩
    · have hs := apiKeyFieldPatch_spec me "description" (apiKeyDiffVal p "description") pa h
      exact ⟨"description", Or.inr rfl, hs.2.1, hs.1, hs.2.2⟩
  · intro pa hpa
    unfold stage_patches at hpa
    rcases List.mem_append.mp hpa with h1 | hm
    · rcases List.mem_append.mp h1 with h2 | hs
      · rcases List.mem_append.mp h2 with hd | hb
        · left
          rcases stage_attr_patch_spec st.attrs "description" (sp.description.map .str)
              pa hd with ⟨v, hv, hpav, hdiff⟩
          rcases Option.map_eq_some'.mp hv with ⟨d, hd2, hvd⟩
          exact ⟨d, hd2, by rw [hpav, hvd], by rw [← hvd] at hdiff; exact hdiff⟩
        · right; left
          rcases stage_attr_patch_spec st.attrs "cacheClusterEnabled"
              (sp.cache_cluster_enabled.map .bool) pa hb with ⟨v, hv, hpav, hdiff⟩
          rcases Option.map_eq_some'.mp hv with ⟨b, hb2, hvb⟩
          exact ⟨b, hb2, by rw [hpav, hvb], by rw [← hvb] at hdiff; exact hdiff⟩
      · right; right; left
        rcases stage_attr_patch_spec st.attrs "cacheClusterSize"
            (sp.cache_cluster_size.map .str) pa hs with ⟨v, hv, hpav, hdiff⟩
        rcases Option.map_eq_some'.mp hv with ⟨s2, hs2, hvs⟩
        exact ⟨s2, hs2, by rw [hpav, hvs], by rw [← hvs] at hdiff; exact hdiff⟩
    · right; right; right
      rcases List.mem_flatten.mp hm with ⟨l, hl, hpal⟩
      rcases List.mem_map.mp hl with ⟨m, hmem, hfm⟩
      rcases stage_method_patch_spec st.methodSettings m pa (hfm ▸ hpal) with ⟨hpam, hcond⟩
      exact ⟨m, hmem, hpam, hcond⟩
  · intro h
    simp only [model_update] at h ⊢
    split at h
    · simp at h
    · rename_i hc
      rw [if_neg hc]
      simp [model_patch_builder]

theorem apigw_C4_amended_witness :
    (model_update false ⟨"rid", "m", Option.none, some "a", Option.none, "present"⟩
        [] []).2.2 =
      [AwsCall.updateModel "rid" "m"
        [⟨"replace", "/schema", optPy (some "a")⟩,
         ⟨"replace", "/description", optPy (Option.none : Option String)⟩]] :=
  (apigw_C4_amended ⟨"k", Option.none, Option.none, false, false, "present"⟩ []
    ⟨"dev", "rid", Option.none, Option.none, Option.none, [], "present"⟩ ⟨[], []⟩
    ⟨"rid", "m", Option.none, some "a", Option.none, "present"⟩ [] []).2.2
    (by decide)

/-- C5 counterexample: the stage diff builder does not suppress an empty
desired description when the observed stage lacks the description field —
it emits a replace operation for description with the empty value,
contradicting the claim that every diff builder suppresses it. -/
theorem apigw_C5_counterexample :
    build_patch_args (some ⟨[], []⟩)
      ⟨"dev", "rid", some "", Option.none, Option.none, [], "present"⟩ =
      some ⟨"rid", "dev", [⟨"replace", "/description", PyVal.str ""⟩]⟩ := by
  decide

/-- C5 (amended): empty-description suppression holds only in the api_key
diff builder (no description patch is emitted when the observed key lacks
the field and the desired description is empty); the stage builder emits a
description replace operation with the empty value in that situation, and
the model module treats the absent observed description as differing from
the empty string and reports changed=true. -/
theorem apigw_C5_amended (p : ApiKeyParams) (me : Dict) (sp : StageParams)
    (st : StageState) (mp : ModelParams) (mobs mu : Dict) :
    (alookup me "description" = Option.none → p.description = some "" →
        ∀ pa ∈ apiKey_create_patches p me, pa.path ≠ "/description")
    ∧ (alookup st.attrs "description" = Option.none → sp.description = some "" →
        create_patch "description" (PyVal.str "") ∈ stage_patches st sp)
    ∧ (alookup mobs "description" = Option.none → mp.description = some "" →
        optPy mp.schema = dictGetD mobs "schema" →
        (model_update false mp mobs mu).1 = true) := by
  refine ⟨?_, ?_, ?_⟩
  · intro hob hdesc pa hpa
    rcases List.mem_append.mp hpa with h | h
    · have hs := apiKeyFieldPatch_spec me "enabled" (apiKeyDiffVal p "enabled") pa h
      rw [hs.1]
      show ("/" ++ "enabled" : String) ≠ "/description"
      decide
    · have : apiKeyFieldPatch me "description" (apiKeyDiffVal p "description") = [] := by
        unfold apiKeyFieldPatch
        rw [if_neg (by simp [apiKeyDiffVal, hdesc, optPy])]
        rw [hob]
        rw [if_pos ⟨rfl, by simp [apiKeyDiffVal, hdesc, optPy]⟩]
      rw [this] at h
      cases h
  · intro hob hdesc
    unfold stage_patches
    apply List.mem_append.mpr
    left
    apply List.mem_append.mpr
    left
    apply List.mem_append.mpr
    left
    rw [hdesc]
    rw [show Option.map PyVal.str (some "") = some (PyVal.str "") from rfl]
    rw [stage_attr_patch_absent st.attrs "description" (PyVal.str "") hob]
    exact List.mem_singleton.mpr rfl
  · intro hob hdesc hschema
    simp only [model_update]
    rw [if_neg]
    · rfl
    · intro hcon
      have h2 := hcon.2
      rw [hdesc] at h2
      unfold dictGetD at h2
      rw [hob] at h2
      simp [optPy] at h2

theorem apigw_C5_amended_witness :
    create_patch "description" (PyVal.str "") ∈
      stage_patches ⟨[], []⟩
        ⟨"dev", "rid", some "", Option.none, Option.none, [], "present"⟩ :=
  (apigw_C5_amended ⟨"k", Option.none, Option.none, false, false, "present"⟩ []
    ⟨"dev", "rid", some "", Option.none, Option.none, [], "present"⟩ ⟨[], []⟩
    ⟨"rid", "m", Option.none, Option.none, Option.none, "present"⟩ [] []).2.1
    rfl rfl

/-- C6 counterexample: the model module includes every optional field in the
create call unconditionally — here content_type is None and description is
the empty string, yet both appear in the argument set, contradicting the
claim that optional fields are included only when non-empty. -/
theorem apigw_C6_counterexample :
    model_create false ⟨"rid", "m", Option.none, Option.none, some "", "present"⟩ [] =
      (true, some [], [AwsCall.createModel
        [("restApiId", PyVal.str "rid"), ("name", PyVal.str "m"),
         ("contentType", PyVal.none), ("schema", PyVal.none),
         ("description", PyVal.str "")]]) := by
  decide

/-- C6 (amended): with state=present and no observed object, both modules
issue exactly one create call with changed=true (none under dry-run, still
changed=true); the api_key module includes the optional description and
value fields in the argument set exactly when they are neither None nor the
empty string, while the model module always includes contentType, schema,
and description whatever their values. -/
theorem apigw_C6_amended (p : ApiKeyParams) (mp : ModelParams) (r u : Dict) :
    apiKey_create true p r = (true, Option.none, [])
    ∧ apiKey_create false p r =
        (true, some r, [AwsCall.createApiKey (apiKey_create_args p)])
    ∧ ((∃ v, ("description", v) ∈ apiKey_create_args p) ↔
        (p.description ≠ Option.none ∧ p.description ≠ some ""))
    ∧ ((∃ v, ("value", v) ∈ apiKey_create_args p) ↔
        (p.value ≠ Option.none ∧ p.value ≠ some ""))
    ∧ model_create true mp u = (true, Option.none, [])
    ∧ model_create false mp u = (true, some u, [AwsCall.createModel
        [("restApiId", PyVal.str mp.rest_api_id), ("name", PyVal.str mp.name),
         ("contentType", optPy mp.content_type), ("schema", optPy mp.schema),
         ("description", optPy mp.description)]]) := by
  refine ⟨rfl, rfl, ?_, ?_, rfl, rfl⟩
  · constructor
    · rintro ⟨v, hv⟩
      by_contra hc
      rw [apiKey_create_args, if_neg hc] at hv
      by_cases hval : p.value ≠ Option.none ∧ p.value ≠ some ""
      · rw [if_pos hval] at hv
        simp at hv
      · rw [if_neg hval] at hv
        simp at hv
    · intro hc
      exact ⟨optPy p.description, by
        rw [apiKey_create_args, if_pos hc]
        simp⟩
  · constructor
    · rintro ⟨v, hv⟩
      by_contra hc
      rw [apiKey_create_args, if_neg hc] at hv
      by_cases hdesc : p.description ≠ Option.none ∧ p.description ≠ some ""
      · rw [if_pos hdesc] at hv
        simp at hv
      · rw [if_neg hdesc] at hv
        simp at hv
    · intro hc
      exact ⟨optPy p.value, by
        rw [apiKey_create_args, if_pos hc]
        simp⟩

theorem apigw_C6_amended_witness :
    (∃ v, ("description", v) ∈ apiKey_create_args
        ⟨"k", some "desc", Option.none, false, false, "present"⟩) :=
  (apigw_C6_amended ⟨"k", some "desc", Option.none, false, false, "present"⟩
    ⟨"rid", "m", Option.none, Option.none, Option.none, "present"⟩ [] []).2.2.1.mpr
    (by decide)

/-- C7: the stage method-setting diff. For each desired entry the composite
key is the escaped method name (every slash replaced by "~1") followed by a
slash and the verb; exactly one replace patch on the nested
caching/enabled path with the stringified desired flag is emitted when the
key is absent from the observed methodSettings map or the stringified
observed cachingEnabled differs, and none otherwise; the concrete
spec scenario yields exactly the single expected patch operation. -/
theorem apigw_C7_stage_method_settings (ms : List (String × Dict))
    (m : MethodSettingParam) :
    stage_method_key m = escapePath m.method_name ++ "/" ++ m.method_verb
    ∧ (alookup ms (stage_method_key m) = Option.none →
        stage_method_patch ms m =
          [⟨"replace", "/" ++ stage_method_key m ++ "/caching/enabled",
            PyVal.str (pyStr (PyVal.bool (m.caching_enabled.getD false)))⟩])
    ∧ (∀ inner, alookup ms (stage_method_key m) = some inner →
        (pyStr (dictGetD inner "cachingEnabled") ≠
            pyStr (PyVal.bool (m.caching_enabled.getD false)) →
          stage_method_patch ms m =
            [⟨"replace", "/" ++ stage_method_key m ++ "/caching/enabled",
              PyVal.str (pyStr (PyVal.bool (m.caching_enabled.getD false)))⟩])
        ∧ (pyStr (dictGetD inner "cachingEnabled") =
            pyStr (PyVal.bool (m.caching_enabled.getD false)) →
          stage_method_patch ms m = []))
    ∧ build_patch_args (some ⟨[], []⟩)
        ⟨"dev", "rid", Option.none, Option.none, Option.none,
         [⟨"/test", "PUT", some false⟩], "present"⟩ =
      some ⟨"rid", "dev",
        [⟨"replace", "/~1test/PUT/caching/enabled", PyVal.str "False"⟩]⟩ := by
  refine ⟨rfl, ?_, ?_, by decide⟩
  · intro h
    rw [stage_method_patch_absent ms m h]
    rfl
  · intro inner h
    constructor
    · intro hne
      unfold stage_method_patch
      split
      · rename_i heq
        rw [h] at heq
        cases heq
      · rename_i inner2 heq
        rw [h] at heq
        cases heq
        rw [if_pos hne]
        rfl
    · intro he
      unfold stage_method_patch
      split
      · rename_i heq
        rw [h] at heq
        cases heq
      · rename_i inner2 heq
        rw [h] at heq
        cases heq
        rw [if_neg (by simpa using he)]

theorem apigw_C7_witness :
    stage_method_patch [] ⟨"/test", "PUT", some false⟩ =
      [⟨"replace", "/" ++ stage_method_key ⟨"/test", "PUT", some false⟩ ++
          "/caching/enabled",
        PyVal.str (pyStr (PyVal.bool ((some false : Option Bool).getD false)))⟩] :=
  (apigw_C7_stage_method_settings [] ⟨"/test", "PUT", some false⟩).2.1 rfl

/-- C9: when state=present and no stage was found, the stage module still
takes the update path against an empty observed mapping — any supplied
description, cache_cluster_enabled, cache_cluster_size, or method_settings
entry yields a non-empty patch set, the invocation reports changed=true and
(outside dry-run) issues the update_stage call against the nonexistent
stage; only when nothing recognized is supplied does it report
changed=false with a null object. -/
theorem apigw_C9_stage_update_missing (cm : Bool) (sp : StageParams)
    (rf : StageState) (hstate : sp.state = "present") :
    ((sp.description ≠ Option.none ∨ sp.cache_cluster_enabled ≠ Option.none ∨
        sp.cache_cluster_size ≠ Option.none ∨ sp.method_settings ≠ []) →
        build_patch_args Option.none sp ≠ Option.none)
    ∧ (∀ a, build_patch_args Option.none sp = some a →
        a.restApiId = sp.rest_api_id ∧ a.stageName = sp.name
        ∧ (stage_process cm sp Option.none rf).1 = true
        ∧ (stage_process true sp Option.none rf).2.2 = []
        ∧ (stage_process false sp Option.none rf).2.2 =
            [AwsCall.updateStage sp.rest_api_id sp.name a.patchOperations])
    ∧ (build_patch_args Option.none sp = Option.none →
        stage_process cm sp Option.none rf = (false, Option.none, [])) := by
  refine ⟨?_, ?_, ?_⟩
  · intro hsum
    have hne : stage_patches ⟨[], []⟩ sp ≠ [] := by
      rcases hsum with hd | hb | hs | hm
      · rcases Option.ne_none_iff_exists'.mp hd with ⟨d, hd2⟩
        simp [stage_patches, hd2, stage_attr_patch, alookup]
      · rcases Option.ne_none_iff_exists'.mp hb with ⟨b, hb2⟩
        simp [stage_patches, hb2, stage_attr_patch, alookup]
      · rcases Option.ne_none_iff_exists'.mp hs with ⟨s2, hs2⟩
        simp [stage_patches, hs2, stage_attr_patch, alookup]
      · rcases List.exists_cons_of_ne_nil hm with ⟨m, rest, hm2⟩
        simp [stage_patches, hm2, stage_method_patch, alookup]
    unfold build_patch_args
    simp only [Option.getD_none]
    rw [if_neg hne]
    simp
  · intro a ha
    have hne : stage_patches ⟨[], []⟩ sp ≠ [] := by
      intro hcon
      unfold build_patch_args at ha
      simp only [Option.getD_none] at ha
      rw [if_pos hcon] at ha
      cases ha
    have ha2 : build_patch_args Option.none sp =
        some ⟨sp.rest_api_id, sp.name, stage_patches ⟨[], []⟩ sp⟩ := by
      unfold build_patch_args
      simp only [Option.getD_none]
      rw [if_neg hne]
    rw [ha2] at ha
    cases ha
    refine ⟨rfl, rfl, ?_, ?_, ?_⟩
    · unfold stage_process
      rw [if_neg (by simp [hstate])]
      rw [if_pos hstate]
      unfold stage_update
      rw [ha2]
      cases cm <;> rfl
    · unfold stage_process
      rw [if_neg (by simp [hstate])]
      rw [if_pos hstate]
      unfold stage_update
      rw [ha2]
      rfl
    · unfold stage_process
      rw [if_neg (by simp [hstate])]
      rw [if_pos hstate]
      unfold stage_update
      rw [ha2]
      rfl
  · intro h
    unfold stage_process
    rw [if_neg (by simp [hstate])]
    rw [if_pos hstate]
    unfold stage_update
    rw [h]

theorem apigw_C9_witness :
    build_patch_args Option.none
      ⟨"dev", "rid", some "x", Option.none, Option.none, [], "present"⟩ ≠
      Option.none :=
  (apigw_C9_stage_update_missing false
    ⟨"dev", "rid", some "x", Option.none, Option.none, [], "present"⟩
    ⟨[], []⟩ rfl).1 (Or.inl (by decide))

/-- C10: the api_key diff builder considers only the enabled and description
fields — every emitted patch targets one of those two paths, and the
computed patch list is invariant under changes to the supplied value and
generate_distinct_id parameters, so an update invocation never touches the
key value, name, or distinct-id setting on the provider. -/
theorem apigw_C10_api_key_frame (p : ApiKeyParams) (me : Dict)
    (v2 : Option String) (g2 : Bool) :
    (∀ pa ∈ apiKey_create_patches p me,
        pa.path = "/enabled" ∨ pa.path = "/description")
    ∧ apiKey_create_patches ⟨p.name, p.description, v2, p.enabled, g2, p.state⟩ me =
        apiKey_create_patches p me := by
  constructor
  · intro pa hpa
    rcases List.mem_append.mp hpa with h | h
    · left
      have hs := apiKeyFieldPatch_spec me "enabled" (apiKeyDiffVal p "enabled") pa h
      rw [hs.1]
      show ("/" ++ "enabled" : String) = "/enabled"
      decide
    · right
      have hs := apiKeyFieldPatch_spec me "description" (apiKeyDiffVal p "description") pa h
      rw [hs.1]
      show ("/" ++ "description" : String) = "/description"
      decide
  · rfl

theorem apigw_C10_witness :
    Patch.path ⟨"replace", "/" ++ "enabled", PyVal.str "True"⟩ = "/enabled" ∨
    Patch.path ⟨"replace", "/" ++ "enabled", PyVal.str "True"⟩ = "/description" :=
  (apigw_C10_api_key_frame ⟨"k", Option.none, Option.none, true, false, "present"⟩
    [] Option.none false).1 ⟨"replace", "/" ++ "enabled", PyVal.str "True"⟩
    (by decide)

theorem createChain_snd_cons (rid : String) (resps : Nat → Dict)
    (pid pp seg : String) (rest : List (String × String)) (i : Nat) :
    (createChain rid resps pid ((pp, seg) :: rest) i).2 =
      AwsCall.createResource rid pid seg ::
        (createChain rid resps (respId (resps i)) rest (i + 1)).2 := by
  cases rest <;> rfl

theorem createChain_length (rid : String) (resps : Nat → Dict) :
    ∀ (rem : List (String × String)) (pid : String) (i : Nat),
      (createChain rid resps pid rem i).2.length = rem.length := by
  intro rem
  induction rem with
  | nil => intro pid i; rfl
  | cons hd t ih =>
      obtain ⟨pp, seg⟩ := hd
      intro pid i
      rw [createChain_snd_cons]
      simp [ih (respId (resps i)) (i + 1)]

theorem createChain_final (rid : String) (resps : Nat → Dict) :
    ∀ (rem : List (String × String)) (pid : String) (i : Nat), rem ≠ [] →
      (createChain rid resps pid rem i).1 = some (resps (i + (rem.length - 1))) := by
  intro rem
  induction rem with
  | nil => intro pid i h; exact absurd rfl h
  | cons hd t ih =>
      obtain ⟨pp, seg⟩ := hd
      intro pid i _
      cases t with
      | nil => rfl
      | cons x xs =>
          have hx := ih (respId (resps i)) (i + 1) (by simp)
          have hcons : (createChain rid resps pid ((pp, seg) :: x :: xs) i).1 =
              (createChain rid resps (respId (resps i)) (x :: xs) (i + 1)).1 := rfl
          rw [hcons, hx]
          have harith : i + 1 + ((x :: xs).length - 1) =
              i + (((pp, seg) :: x :: xs).length - 1) := by
            simp
            omega
          rw [harith]

theorem createChain_calls (rid : String) (resps : Nat → Dict) :
    ∀ (rem : List (String × String)) (pid : String) (i j : Nat),
      ((createChain rid resps pid rem i).2)[j]? =
        (rem[j]?).map (fun pr => AwsCall.createResource rid
          (if j = 0 then pid else respId (resps (i + j - 1))) pr.2) := by
  intro rem
  induction rem with
  | nil => intro pid i j; simp [createChain]
  | cons hd t ih =>
      obtain ⟨pp, seg⟩ := hd
      intro pid i j
      rw [createChain_snd_cons]
      cases j with
      | zero => simp
      | succ j2 =>
          rw [List.getElem?_cons_succ, List.getElem?_cons_succ,
            ih (respId (resps i)) (i + 1) j2]
          have hfun : (fun pr : String × String => AwsCall.createResource rid
              (if j2 = 0 then respId (resps i)
               else respId (resps (i + 1 + j2 - 1))) pr.2) =
              (fun pr : String × String => AwsCall.createResource rid
              (if j2 + 1 = 0 then pid
               else respId (resps (i + (j2 + 1) - 1))) pr.2) := by
            funext pr
            cases j2 with
            | zero => simp
            | succ j3 =>
                simp only [Nat.succ_ne_zero, if_false]
                rw [show i + 1 + (j3 + 1) - 1 = i + (j3 + 1 + 1) - 1 from by omega]
          rw [hfun]

/-- C8 (modelled from the spec; the apigw_resource.py source is not in the
repository snapshot, only its unit tests): if the requested path already
exists, no create call is issued and the existing leaf object is returned
with changed=false; if it does not, changed=true and the create chain
issues exactly one create per missing trailing segment, in path order, each
call naming as parent the id returned by the immediately preceding create
(the supplied ancestor id for the first), and only the final create
response is kept; the concrete spec §8 scenario produces exactly the two
expected sequential creates and returns the second response. -/
theorem apigw_C8_path_tree (rid : String) (pmap : List (String × Dict))
    (name : String) (resps : Nat → Dict) (leaf : Dict) (pid : String)
    (rem : List (String × String)) (i j : Nat) :
    (alookup pmap name = some leaf →
        resource_present false rid pmap name resps = (false, some leaf, []))
    ∧ (alookup pmap name = Option.none →
        (resource_present false rid pmap name resps).1 = true)
    ∧ (createChain rid resps pid rem i).2.length = rem.length
    ∧ (rem ≠ [] →
        (createChain rid resps pid rem i).1 = some (resps (i + (rem.length - 1))))
    ∧ ((createChain rid resps pid rem i).2)[j]? =
        (rem[j]?).map (fun pr => AwsCall.createResource rid
          (if j = 0 then pid else respId (resps (i + j - 1))) pr.2)
    ∧ resource_present false "rid" [("/", [("id", PyVal.str "root")])] "/a/b"
        (fun n => if n = 0 then [("id", PyVal.str "aid")] else [("id", PyVal.str "bid")]) =
      (true, some [("id", PyVal.str "bid")],
        [AwsCall.createResource "rid" "root" "a",
         AwsCall.createResource "rid" "aid" "b"]) := by
  refine ⟨?_, ?_, createChain_length rid resps rem pid i,
    createChain_final rid resps rem pid i, createChain_calls rid resps rem pid i j,
    by decide⟩
  · intro h
    unfold resource_present
    rw [h]
  · intro h
    unfold resource_present
    rw [h]
    rfl

theorem apigw_C8_witness :
    resource_present false "rid" [("/r", [("id", PyVal.str "x")])] "/r"
      (fun _ => []) = (false, some [("id", PyVal.str "x")], []) :=
  (apigw_C8_path_tree "rid" [("/r", [("id", PyVal.str "x")])] "/r" (fun _ => [])
    [("id", PyVal.str "x")] "" [] 0 0).1 (by decide)
